import Mathlib

/-!
Verification of the resilient fetch client of the congress-mcp repository
(`src/congress_mcp/client.py`), shallowly embedded in Lean 4.

JSON values are modelled by `JVal`; Python dictionaries by insertion-ordered
association lists; the network is modelled by a deterministic function from
attempt number (resp. endpoint) to the HTTP response produced by the upstream.
Machine floats used for retry delays are modelled by rationals; the parsing of
the `Retry-After` header via Python's `float()` is a parameter
`pf : String → Option ℚ` of the model.
-/

namespace Congress

/-- A JSON value (decoded Python object, as produced by `response.json()`). -/
inductive JVal where
  | null : JVal
  | bool : Bool → JVal
  | num : Int → JVal
  | str : String → JVal
  | arr : List JVal → JVal
  | obj : List (String × JVal) → JVal
deriving Repr

/-- A Python dictionary with `String` keys: insertion-ordered association list. -/
abbrev Obj := List (String × JVal)

/-- First-match association-list lookup (on well-formed dicts keys are unique,
so this is Python's `d[k]` / `k in d`). -/
def alookup {α : Type} : List (String × α) → String → Option α
  | [], _ => none
  | (k', v) :: d, k => if k' = k then some v else alookup d k

/-- Replace the value bound to `k`, keeping its position. -/
def updateKey {α : Type} (k : String) (v : α) :
    List (String × α) → List (String × α)
  | [] => []
  | (a, b) :: d =>
    if a = k then (k, v) :: updateKey k v d else (a, b) :: updateKey k v d

/-- Python dict assignment `d[k] = v`: update in place if the key exists
(keeping its position), append otherwise. -/
def aset {α : Type} (d : List (String × α)) (k : String) (v : α) :
    List (String × α) :=
  if (alookup d k).isSome then updateKey k v d else d ++ [(k, v)]

/-- `d[k]` lookup returning an `Option` (`k in d` ↔ `isSome`). -/
def dictGet (d : Obj) (k : String) : Option JVal :=
  alookup d k

/-- `d.get(k, v)`: lookup with a default. -/
def dictGetD (d : Obj) (k : String) (v : JVal) : JVal :=
  (dictGet d k).getD v

/-- `d[k] = v` on JSON objects. -/
def dictSet (d : Obj) (k : String) (v : JVal) : Obj :=
  aset d k v

/-- `{**a, **b}`: copy of `a` updated with every binding of `b`, in order. -/
def dictMerge (a b : Obj) : Obj :=
  b.foldl (fun acc p => dictSet acc p.1 p.2) a

/-- Python truthiness of a decoded JSON value. -/
def jTruthy : JVal → Bool
  | .null => false
  | .bool b => b
  | .num n => n != 0
  | .str s => s ≠ ""
  | .arr l => !l.isEmpty
  | .obj o => !o.isEmpty

/-- Configuration (`config.py`, `Config` dataclass): the fields the client
reads. `timeout` and `base_url` play no role in the embedded logic. -/
structure Config where
  api_key : String
  default_limit : Int := 20
  max_limit : Int := 250
  max_retries : Nat := 3
  retry_base_delay : ℚ := 1

/-- One upstream HTTP response, as seen by `CongressClient.get`:
status code, the optional `Retry-After` header, the body text and the decoded
JSON body (a dictionary — the Congress.gov API returns JSON objects). -/
structure Response where
  status_code : Nat
  retryAfter : Option String := none
  text : String := ""
  json : Obj := []

/-- Errors raised by `CongressClient.get` (from `exceptions.py`, plus the
`RuntimeError` guard of `client.py` line 76 and transport errors).
`apiError` carries the message and the status code as in `CongressAPIError`. -/
inductive GetError where
  | runtimeError : String → GetError
  | notFound : String → GetError
  | rateLimit : GetError
  | authentication : GetError
  | apiError : String → Nat → GetError
  | httpError : GetError
  | pyCrash : GetError
deriving Repr, DecidableEq

/-- The delay computed before a retry (client.py lines 94-101): `Retry-After`
header parsed as a float when present and parseable, exponential backoff
`retry_base_delay * 2 ** attempt` otherwise. -/
def computeDelay (cfg : Config) (pf : String → Option ℚ) (resp : Response)
    (attempt : Nat) : ℚ :=
  match resp.retryAfter with
  | some ra =>
    match pf ra with
    | some d => d
    | none => cfg.retry_base_delay * 2 ^ attempt
  | none => cfg.retry_base_delay * 2 ^ attempt

/-- The retry loop of `get` (client.py lines 86-110), started at a given
attempt index with `fuel = max_retries - attempt` retries left.  Returns the
number of requests issued, the list of sleep delays in order, and the
response that broke the loop (`none` when every attempt returned 429 and
`RateLimitError` is raised). -/
def retryFrom (cfg : Config) (pf : String → Option ℚ) (responses : Nat → Response) :
    Nat → Nat → Nat × List ℚ × Option Response
  | attempt, 0 =>
    if (responses attempt).status_code = 429 then (1, [], none)
    else (1, [], some (responses attempt))
  | attempt, fuel + 1 =>
    if (responses attempt).status_code = 429 then
      let d := computeDelay cfg pf (responses attempt) attempt
      let (n, ds, r) := retryFrom cfg pf responses (attempt + 1) fuel
      (n + 1, d :: ds, r)
    else
      (1, [], some (responses attempt))

/-- Parameter merging of `get` (client.py lines 78-84): copy the caller's
params, set `api_key` and `format`, clamp and set `limit` when given, set
`offset`. -/
def buildParams (cfg : Config) (params : Obj) (limit : Option Int) (offset : Int) :
    Obj :=
  let p := dictSet (dictSet params "api_key" (.str cfg.api_key)) "format" (.str "json")
  let p := match limit with
    | some l => dictSet p "limit" (.num (min l cfg.max_limit))
    | none => p
  dictSet p "offset" (.num offset)

/-- The full outcome of one `get` call: how many HTTP requests were issued,
the sleeps performed, the query parameters sent upstream, the caller's params
object after the call (line 78 copies it, so it is returned unchanged), and
the result. -/
structure GetOutcome where
  requests : Nat
  sleeps : List ℚ
  sentParams : Obj
  callerParamsAfter : Obj
  result : Except GetError Obj
deriving Repr

/-- Pagination normalization on a 200 response (client.py lines 124-137):
when `data.get("pagination", {})` is truthy, add a `_pagination` block with
`total_count`, `has_more` and `next_offset`.  Yields `none` when Python would
crash (pagination metadata or counts not of the expected type). -/
def normalizePagination (cfg : Config) (sentParams : Obj) (offset : Int)
    (data : Obj) : Option Obj :=
  let pagination := dictGetD data "pagination" (.obj [])
  if jTruthy pagination then
    match pagination with
    | .obj pobj =>
      match dictGetD pobj "count" (.num 0) with
      | .num total_count =>
        match dictGetD sentParams "limit" (.num cfg.default_limit) with
        | .num effective_limit =>
          some (dictSet data "_pagination" (.obj
            [("total_count", .num total_count),
             ("has_more", .bool (decide (offset + effective_limit < total_count))),
             ("next_offset",
              if offset + effective_limit < total_count then
                .num (offset + effective_limit)
              else .null)]))
        | _ => none
      | _ => none
    | _ => none
  else
    some data

/-- `CongressClient.get` (client.py lines 50-137).  `initialized` models
whether `self._client` has been set by `__aenter__`; `responses` gives the
upstream response to the i-th request attempt. -/
def get (cfg : Config) (initialized : Bool) (pf : String → Option ℚ)
    (responses : Nat → Response) (endpoint : String) (params : Obj)
    (limit : Option Int) (offset : Int) : GetOutcome :=
  if !initialized then
    { requests := 0, sleeps := [], sentParams := [], callerParamsAfter := params,
      result := .error (.runtimeError
        "Client not initialized. Use 'async with' context manager.") }
  else
    let sent := buildParams cfg params limit offset
    let (n, ds, r) := retryFrom cfg pf responses 0 cfg.max_retries
    let result : Except GetError Obj :=
      match r with
      | none => .error .rateLimit
      | some resp =>
        if resp.status_code = 404 then
          .error (.notFound ("Resource not found: " ++ endpoint))
        else if resp.status_code = 401 ∨ resp.status_code = 403 then
          .error .authentication
        else if resp.status_code ≠ 200 then
          .error (.apiError ("API error " ++ toString resp.status_code ++ ": "
            ++ resp.text) resp.status_code)
        else
          match normalizePagination cfg sent offset resp.json with
          | some data => .ok data
          | none => .error .pyCrash
    { requests := n, sleeps := ds, sentParams := sent, callerParamsAfter := params,
      result := result }

/-- Python list slicing `l[:n]` (negative `n` counts from the end). -/
def pyTake (l : List JVal) (n : Int) : List JVal :=
  if 0 ≤ n then l.take n.toNat else l.take (l.length - (-n).toNat)

/-- The ordered key list of `_extract_results` (client.py lines 194-219). -/
def result_keys : List String :=
  ["bills", "amendments", "members", "committees", "nominations", "treaties",
   "hearings", "reports", "summaries", "laws", "communications",
   "houseCommunications", "senateCommunications", "committeeMeetings",
   "committeePrints", "committeeReports", "congressionalRecord",
   "dailyCongressionalRecord", "boundCongressionalRecord", "houseRequirements",
   "crsReports", "houseVotes", "congresses", "results"]

/-- The scan of `_extract_results` (client.py lines 221-228): for each key in
order, if it is in the response and its value is a list, return that value;
keys present with a non-list value are skipped and the scan continues. -/
def extractScan (response : Obj) : List String → List JVal
  | [] => []
  | k :: ks =>
    match dictGet response k with
    | some (.arr l) => l
    | some _ => extractScan response ks
    | none => extractScan response ks

/-- `CongressClient._extract_results` (client.py lines 189-228). -/
def extract_results (response : Obj) : List JVal :=
  extractScan response result_keys

/-- Truthiness of the Python value `max_results : int | None`. -/
def truthyOptInt : Option Int → Bool
  | none => false
  | some n => n != 0

/-- The `while True` loop of `get_all` (client.py lines 163-185), fuel-indexed
(`.ok none` means the fuel ran out before the loop terminated).  Returns the
accumulated results and the number of `get` requests issued. -/
def getAllLoop (doGet : Int → Int → Except GetError Obj) (max_results : Option Int)
    (batch_size : Int) :
    Nat → Int → List JVal → Nat → Except GetError (Option (List JVal × Nat))
  | 0, _, _, _ => .ok none
  | fuel + 1, offset, acc, reqs =>
    match doGet batch_size offset with
    | .error e => .error e
    | .ok response =>
      let results := extract_results response
      let acc' := acc ++ results
      let reqs' := reqs + 1
      if truthyOptInt max_results &&
          decide ((max_results.getD 0) ≤ (acc'.length : Int)) then
        .ok (some (pyTake acc' (max_results.getD 0), reqs'))
      else
        match dictGetD response "pagination" (.obj []) with
        | .obj pobj =>
          match dictGetD pobj "count" (.num 0) with
          | .num total_count =>
            if decide (total_count ≤ offset + batch_size) || results.isEmpty then
              .ok (some (acc', reqs'))
            else
              getAllLoop doGet max_results batch_size fuel (offset + batch_size)
                acc' reqs'
          | _ => .error .pyCrash
        | _ => .error .pyCrash

/-- `CongressClient.get_all` (client.py lines 139-187), parametrized by
`doGet limit offset`, the result of the underlying `get` call.  Returns the
final response dictionary together with the number of page requests. -/
def get_all (cfg : Config) (doGet : Int → Int → Except GetError Obj)
    (max_results : Option Int) (fuel : Nat) :
    Except GetError (Option (Obj × Nat)) :=
  let batch_size := min
    (match max_results with
     | some m => if m ≠ 0 then m else cfg.max_limit
     | none => cfg.max_limit)
    cfg.max_limit
  match getAllLoop doGet max_results batch_size fuel 0 [] 0 with
  | .error e => .error e
  | .ok none => .ok none
  | .ok (some (acc, reqs)) =>
    .ok (some ([("results", .arr acc), ("count", .num acc.length)], reqs))

/-- Exceptions that escape `safe_get` inside `fetch_details_concurrent`
(client.py lines 248-254): `RateLimitError` and `AuthenticationError` are
re-raised; other `CongressAPIError`s (including `NotFoundError`) and
`httpx.HTTPError` are converted to `None`; anything else (e.g. `RuntimeError`
or an interpreter-level error) is not caught and propagates. -/
def isHardError : GetError → Bool
  | .rateLimit => true
  | .authentication => true
  | .notFound _ => false
  | .apiError _ _ => false
  | .httpError => false
  | .runtimeError _ => true
  | .pyCrash => true

/-- The `safe_get` closure of `fetch_details_concurrent` (client.py
lines 245-254). -/
def safe_get (doGet : String → Except GetError Obj) (endpoint : String) :
    Except GetError (Option Obj) :=
  match doGet endpoint with
  | .ok d => .ok (some d)
  | .error e => if isHardError e then .error e else .ok none

/-- `asyncio.gather` over the wrapped fetch tasks, modelled sequentially and
deterministically: the list of task results in task order, or an escaping
exception of one of the tasks. -/
def gather (f : String → Except GetError (Option Obj)) :
    List String → Except GetError (List (Option Obj))
  | [] => .ok []
  | e :: l =>
    match f e with
    | .error err => .error err
    | .ok v =>
      match gather f l with
      | .error err => .error err
      | .ok vs => .ok (v :: vs)

/-- `CongressClient.fetch_details_concurrent` (client.py lines 230-260):
truncate to `max_concurrent` endpoints, fetch each, gather.  `doGet` gives the
outcome of `self.get(endpoint)`; a propagating exception from any task makes
the whole call fail. -/
def fetch_details_concurrent (doGet : String → Except GetError Obj)
    (endpoints : List String) (max_concurrent : Nat) :
    Except GetError (List (Option Obj)) :=
  gather (safe_get doGet) (endpoints.take max_concurrent)

/-- The list-unwrap step of the detail-map construction (client.py
lines 283-285): a non-empty list payload is replaced by its first element. -/
def unwrapDetail : JVal → JVal
  | .arr (x :: _) => x
  | v => v

/-- One entry of the detail map: a fetched detail response contributes its
payload when it is truthy, has the `detail_key`, and the (unwrapped) payload
is a dictionary (client.py lines 279-287). -/
def detailPayload (detail_key : String) : Option Obj → Option Obj
  | none => none
  | some dr =>
    if !dr.isEmpty && (dictGet dr detail_key).isSome then
      match unwrapDetail (dictGetD dr detail_key .null) with
      | .obj dd => some dd
      | _ => none
    else none

/-- The `detail_map` construction loop of `enrich_list_response` (client.py
lines 277-287), traversing `zip(endpoints, details)` left to right with
accumulator `m`. -/
def buildDetailMapAux (detail_key : String) (m : List (String × Obj)) :
    List (String × Option Obj) → List (String × Obj)
  | [] => m
  | p :: rest =>
    buildDetailMapAux detail_key
      (match detailPayload detail_key p.2 with
       | some dd => aset m p.1 dd
       | none => m)
      rest

/-- The `detail_map` of `enrich_list_response`, starting from the empty dict. -/
def buildDetailMap (detail_key : String) (pairs : List (String × Option Obj)) :
    List (String × Obj) :=
  buildDetailMapAux detail_key [] pairs

/-- The merge loop of `enrich_list_response` (client.py lines 289-301),
iterating over `enumerate(items)` from index `i`.  Items outside the
detail map are kept as-is; an in-map item that is not a dictionary makes
`{**item, **detail}` raise (modelled as `pyCrash`). -/
def mergeItems (detail_map : List (String × Obj)) (endpoints : List String) :
    List JVal → Nat → Except GetError (List JVal × List String)
  | [], _ => .ok ([], [])
  | item :: rest, i =>
    match endpoints[i]? with
    | some ep =>
      match alookup detail_map ep with
      | some dd =>
        match item with
        | .obj io =>
          match mergeItems detail_map endpoints rest (i + 1) with
          | .error e => .error e
          | .ok (es, fs) => .ok (.obj (dictMerge io dd) :: es, fs)
        | _ => .error .pyCrash
      | none =>
        match mergeItems detail_map endpoints rest (i + 1) with
        | .error e => .error e
        | .ok (es, fs) => .ok (item :: es, ep :: fs)
    | none =>
      match mergeItems detail_map endpoints rest (i + 1) with
      | .error e => .error e
      | .ok (es, fs) => .ok (item :: es, fs)

/-- `CongressClient.enrich_list_response` (client.py lines 262-325).
`doGet` gives the outcome of `self.get` on a detail endpoint.  A truthy
non-list value under `result_key` is outside the modelled domain (Python
raises `TypeError` on the slice for dict/int/bool values) and maps to
`pyCrash`. -/
def enrich_list_response (doGet : String → Except GetError Obj)
    (list_response : Obj) (result_key detail_key : String)
    (build_endpoint : JVal → String) (max_concurrent : Nat) :
    Except GetError Obj :=
  let items := dictGetD list_response result_key (.arr [])
  if !(jTruthy items) then
    .ok list_response
  else
    match items with
    | .arr items =>
      let endpoints := (items.take max_concurrent).map build_endpoint
      match fetch_details_concurrent doGet endpoints max_concurrent with
      | .error e => .error e
      | .ok details =>
        let detail_map := buildDetailMap detail_key (endpoints.zip details)
        match mergeItems detail_map endpoints items 0 with
        | .error e => .error e
        | .ok (enriched_items, failed_endpoints) =>
          let resp := dictSet list_response result_key (.arr enriched_items)
          .ok (if !failed_endpoints.isEmpty then
                dictSet resp "_warnings" (.arr (failed_endpoints.map
                  (fun e => .str ("Detail enrichment failed for: " ++ e))))
              else resp)
    | _ => .error .pyCrash

/-! ### Auxiliary definitions used to state the verified properties -/

/-- Whether a JSON value is a dictionary (`isinstance(x, dict)`). -/
def JVal.isObj : JVal → Bool
  | .obj _ => true
  | _ => false

/-- Whether the outcome of an underlying `get` call is an exception that
escapes the `safe_get` wrapper. -/
def isHardOutcome : Except GetError Obj → Bool
  | .ok _ => false
  | .error e => isHardError e

/-- The detail payload `enrich_list_response` associates with one endpoint:
the outcome of `get`, downgraded to `None` on soft per-item errors, then
filtered through the detail-map construction rule. -/
def itemDetail (doGet : String → Except GetError Obj) (detail_key : String)
    (ep : String) : Option Obj :=
  detailPayload detail_key
    (match doGet ep with
     | .ok d => some d
     | .error _ => none)

/-- The value the merge loop of `enrich_list_response` produces for the item
at index `i`. -/
def mergeOne (detail_map : List (String × Obj)) (endpoints : List String)
    (i : Nat) (item : JVal) : JVal :=
  match endpoints[i]? with
  | some ep =>
    match alookup detail_map ep with
    | some dd =>
      match item with
      | .obj io => .obj (dictMerge io dd)
      | v => v
    | none => item
  | none => item

/-- The list of merged items produced by the merge loop, starting at index
`i`. -/
def mergeAll (detail_map : List (String × Obj)) (endpoints : List String) :
    Nat → List JVal → List JVal
  | _, [] => []
  | i, item :: rest =>
    mergeOne detail_map endpoints i item ::
      mergeAll detail_map endpoints (i + 1) rest

/-- The `failed_endpoints` list produced by the merge loop, starting at
index `i`. -/
def failedAll (detail_map : List (String × Obj)) (endpoints : List String) :
    Nat → List JVal → List String
  | _, [] => []
  | i, _ :: rest =>
    match endpoints[i]? with
    | some ep =>
      if (alookup detail_map ep).isSome then
        failedAll detail_map endpoints (i + 1) rest
      else
        ep :: failedAll detail_map endpoints (i + 1) rest
    | none => failedAll detail_map endpoints (i + 1) rest

/-- The result-extraction rule as the specification sentence reads: the FIRST
key of the ordered list that is present in the response; its value when that
value is a list, else an empty list.  (To be compared with the actual
`_extract_results`.) -/
def extractFirstPresentSpec (response : Obj) : List JVal :=
  match result_keys.find? (fun k => (dictGet response k).isSome) with
  | some k =>
    match dictGet response k with
    | some (.arr l) => l
    | _ => []
  | none => []

/-- A consistent upstream for `get_all`: a fixed item list, served under the
generic "results" key by Python slicing `items[offset : offset + limit]`,
with a pagination block always reporting `count = len(items)`. -/
def pageServer (items : List JVal) : Int → Int → Except GetError Obj :=
  fun limit offset =>
    .ok [("results", .arr (pyTake (items.drop offset.toNat) limit)),
         ("pagination", .obj [("count", .num items.length)])]

/-! ### Concrete fixtures used to evaluate the verified properties -/

/-- A demo configuration with the dataclass defaults. -/
def cfgDemo : Config := { api_key := "key" }

/-- A demo configuration with `max_retries = 0`. -/
def cfgDemoNoRetry : Config := { api_key := "key", max_retries := 0 }

/-- A demo `Retry-After` parser: accepts the literal "7", rejects the rest. -/
def pfDemo : String → Option ℚ
  | "7" => some 7
  | _ => none

/-- A demo upstream: `Retry-After: 7` on the first attempt, a bare 429 on the
second, then 200 with a body carrying pagination metadata. -/
def responsesDemo : Nat → Response
  | 0 => { status_code := 429, retryAfter := some "7" }
  | 1 => { status_code := 429 }
  | _ => { status_code := 200,
           json := [("bills", .arr []),
                    ("pagination", .obj [("count", .num 30)])] }

/-- A demo upstream that always rate-limits. -/
def responses429 : Nat → Response := fun _ => { status_code := 429 }

/-- A demo upstream answering 404 immediately. -/
def responses404 : Nat → Response :=
  fun _ => { status_code := 404, text := "Not found" }

/-- A demo upstream answering 500 immediately. -/
def responses500 : Nat → Response :=
  fun _ => { status_code := 500, text := "Internal server error" }

/-- A demo detail fetcher for the enrichment claims: endpoint "/d/0" succeeds,
"/d/1" is missing (a soft error), anything else rate-limits. -/
def doGetDemo : String → Except GetError Obj
  | "/d/0" => .ok [("hearing", .obj [("x", .num 1)])]
  | "/d/1" => .error (.notFound "Resource not found: /d/1")
  | _ => .error .rateLimit

/-- A demo list response with two summary items. -/
def listResponseDemo : Obj :=
  [("hearings", .arr [.obj [("id", .num 0)], .obj [("id", .num 1)]])]

/-- A demo endpoint builder reading the item's `id`. -/
def buildEndpointDemo : JVal → String
  | .obj o =>
    match dictGetD o "id" .null with
    | .num n => "/d/" ++ toString n
    | _ => "/d/none"
  | _ => "/d/none"

/-- A response whose first present envelope key ("bills") holds a non-list
value while a later key ("members") holds a list. -/
def mixedKeysResponse : Obj :=
  [("bills", .num 5), ("members", .arr [.null])]

/-! ### Dictionary lemmas -/

theorem alookup_updateKey_self {α : Type} (d : List (String × α)) (k : String)
    (v : α) :
    alookup (updateKey k v d) k =
      if (alookup d k).isSome then some v else none := by
  induction d with
  | nil => simp [updateKey, alookup]
  | cons p d ih =>
    obtain ⟨a, b⟩ := p
    by_cases h : a = k
    · subst h
      simp [updateKey, alookup]
    · simp [updateKey, alookup, h, ih]

theorem alookup_updateKey_ne {α : Type} (d : List (String × α)) (k k' : String)
    (v : α) (h : k' ≠ k) :
    alookup (updateKey k v d) k' = alookup d k' := by
  induction d with
  | nil => simp [updateKey]
  | cons p d ih =>
    obtain ⟨a, b⟩ := p
    by_cases ha : a = k
    · subst ha
      simp [updateKey, alookup, Ne.symm h, ih]
    · by_cases ha' : a = k'
      · subst ha'
        simp [updateKey, alookup, ha]
      · simp [updateKey, alookup, ha, ha', ih]

theorem alookup_append {α : Type} (d l : List (String × α)) (k : String) :
    alookup (d ++ l) k =
      match alookup d k with
      | some v => some v
      | none => alookup l k := by
  induction d with
  | nil => simp [alookup]
  | cons p d ih =>
    obtain ⟨a, b⟩ := p
    by_cases h : a = k
    · simp [alookup, h]
    · simp [alookup, h, ih]

theorem alookup_aset_self {α : Type} (d : List (String × α)) (k : String)
    (v : α) :
    alookup (aset d k v) k = some v := by
  unfold aset
  by_cases hs : (alookup d k).isSome = true
  · rw [if_pos hs, alookup_updateKey_self, if_pos hs]
  · rw [if_neg hs, alookup_append]
    rcases hd : alookup d k with _ | v'
    · simp [alookup]
    · rw [hd] at hs
      simp at hs

theorem alookup_aset_ne {α : Type} (d : List (String × α)) (k k' : String)
    (v : α) (h : k' ≠ k) :
    alookup (aset d k v) k' = alookup d k' := by
  unfold aset
  by_cases hs : (alookup d k).isSome = true
  · rw [if_pos hs]
    exact alookup_updateKey_ne d k k' v h
  · rw [if_neg hs, alookup_append]
    rcases hd : alookup d k' with _ | v'
    · simp [alookup, Ne.symm h]
    · rfl

theorem dictGet_dictSet_self (d : Obj) (k : String) (v : JVal) :
    dictGet (dictSet d k v) k = some v :=
  alookup_aset_self d k v

theorem dictGet_dictSet_ne (d : Obj) (k k' : String) (v : JVal)
    (h : k' ≠ k) : dictGet (dictSet d k v) k' = dictGet d k' :=
  alookup_aset_ne d k k' v h

theorem buildParams_limit (cfg : Config) (params : Obj) (l : Int)
    (offset : Int) :
    dictGet (buildParams cfg params (some l) offset) "limit" =
      some (.num (min l cfg.max_limit)) := by
  unfold buildParams dictGet dictSet
  rw [alookup_aset_ne _ _ _ _ (by decide)]
  exact alookup_aset_self _ _ _

/-! ### C3: use before resource acquisition -/

/-- C3: a `get` call made before the connection resource is acquired
(`self._client is None`) fails with the not-initialized precondition error
(a `RuntimeError` in the code, the spec's `PreconditionError`) and issues
zero network requests. -/
theorem get_unscoped_precondition_error (cfg : Config) (pf : String → Option ℚ)
    (responses : Nat → Response) (endpoint : String) (params : Obj)
    (limit : Option Int) (offset : Int) :
    get cfg false pf responses endpoint params limit offset =
      { requests := 0, sleeps := [], sentParams := [],
        callerParamsAfter := params,
        result := .error (.runtimeError
          "Client not initialized. Use 'async with' context manager.") } :=
  rfl

/-! ### C4: limit clamping -/

/-- C4: the `limit` query parameter sent upstream is the caller's limit
clamped to `config.max_limit`: the configured maximum when the caller's
limit exceeds it, the caller's limit unchanged otherwise. -/
theorem get_clamps_limit (cfg : Config) (pf : String → Option ℚ)
    (responses : Nat → Response) (endpoint : String) (params : Obj)
    (l : Int) (offset : Int) :
    (cfg.max_limit < l →
      dictGet (get cfg true pf responses endpoint params (some l) offset).sentParams
          "limit" = some (.num cfg.max_limit)) ∧
    (l ≤ cfg.max_limit →
      dictGet (get cfg true pf responses endpoint params (some l) offset).sentParams
          "limit" = some (.num l)) := by
  have hs : (get cfg true pf responses endpoint params (some l) offset).sentParams
      = buildParams cfg params (some l) offset := by
    unfold get
    simp
  rw [hs]
  constructor
  · intro h
    rw [buildParams_limit, min_eq_right (le_of_lt h)]
  · intro h
    rw [buildParams_limit, min_eq_left h]

/-- Witness for C4: a caller limit of 500 is clamped to the configured 250,
while a caller limit of 10 is sent unchanged. -/
theorem get_clamps_limit_witness :
    (cfgDemo.max_limit < 500 ∧
      dictGet (get cfgDemo true pfDemo responsesDemo "/bill/118" []
        (some 500) 0).sentParams "limit" = some (.num cfgDemo.max_limit)) ∧
    ((10 : Int) ≤ cfgDemo.max_limit ∧
      dictGet (get cfgDemo true pfDemo responsesDemo "/bill/118" []
        (some 10) 0).sentParams "limit" = some (.num 10)) := by
  have h1 := (get_clamps_limit cfgDemo pfDemo responsesDemo "/bill/118" []
    500 0).1 (by decide)
  have h2 := (get_clamps_limit cfgDemo pfDemo responsesDemo "/bill/118" []
    10 0).2 (by decide)
  exact ⟨⟨by decide, h1⟩, ⟨by decide, h2⟩⟩

/-! ### Retry-loop lemmas -/

theorem retryFrom_success (cfg : Config) (pf : String → Option ℚ)
    (responses : Nat → Response) :
    ∀ (k a fuel : Nat), k ≤ fuel →
    (∀ i, i < k → (responses (a + i)).status_code = 429) →
    (responses (a + k)).status_code ≠ 429 →
    retryFrom cfg pf responses a fuel =
      (k + 1,
       (List.range k).map (fun i => computeDelay cfg pf (responses (a + i)) (a + i)),
       some (responses (a + k))) := by
  intro k
  induction k with
  | zero =>
    intro a fuel _ _ hstop
    simp only [Nat.add_zero] at hstop
    cases fuel with
    | zero => simp [retryFrom, hstop]
    | succ fuel => simp [retryFrom, hstop]
  | succ k ih =>
    intro a fuel hk h429 hstop
    obtain ⟨fuel', rfl⟩ : ∃ f, fuel = f + 1 := ⟨fuel - 1, by omega⟩
    have h0 : (responses a).status_code = 429 := by
      have := h429 0 (by omega)
      simpa using this
    have hrec := ih (a + 1) fuel' (by omega)
      (fun i hi => by
        have := h429 (i + 1) (by omega)
        have harr : a + (i + 1) = a + 1 + i := by omega
        rwa [harr] at this)
      (by
        have harr : a + (k + 1) = a + 1 + k := by omega
        rwa [harr] at hstop)
    have hmap : (List.range (k + 1)).map
          (fun i => computeDelay cfg pf (responses (a + i)) (a + i)) =
        computeDelay cfg pf (responses a) a ::
          (List.range k).map
            (fun i => computeDelay cfg pf (responses (a + 1 + i)) (a + 1 + i)) := by
      rw [List.range_succ_eq_map, List.map_cons, List.map_map]
      refine congrArg₂ List.cons (by simp) (List.map_congr_left ?_)
      intro i _
      have harr : a + (i + 1) = a + 1 + i := by omega
      simp [Function.comp, Nat.succ_eq_add_one, harr]
    have hresp : a + (k + 1) = a + 1 + k := by omega
    simp only [retryFrom, h0, if_pos rfl, hrec, hmap, hresp]
    simp

theorem retryFrom_exhausted (cfg : Config) (pf : String → Option ℚ)
    (responses : Nat → Response) :
    ∀ (fuel a : Nat),
    (∀ i, i ≤ fuel → (responses (a + i)).status_code = 429) →
    retryFrom cfg pf responses a fuel =
      (fuel + 1,
       (List.range fuel).map (fun i => computeDelay cfg pf (responses (a + i)) (a + i)),
       none) := by
  intro fuel
  induction fuel with
  | zero =>
    intro a h
    have h0 : (responses a).status_code = 429 := by
      have := h 0 (Nat.le_refl 0)
      simpa using this
    simp [retryFrom, h0]
  | succ fuel ih =>
    intro a h
    have h0 : (responses a).status_code = 429 := by
      have := h 0 (by omega)
      simpa using this
    have hrec := ih (a + 1)
      (fun i hi => by
        have := h (i + 1) (by omega)
        have harr : a + (i + 1) = a + 1 + i := by omega
        rwa [harr] at this)
    have hmap : (List.range (fuel + 1)).map
          (fun i => computeDelay cfg pf (responses (a + i)) (a + i)) =
        computeDelay cfg pf (responses a) a ::
          (List.range fuel).map
            (fun i => computeDelay cfg pf (responses (a + 1 + i)) (a + 1 + i)) := by
      rw [List.range_succ_eq_map, List.map_cons, List.map_map]
      refine congrArg₂ List.cons (by simp) (List.map_congr_left ?_)
      intro i _
      have harr : a + (i + 1) = a + 1 + i := by omega
      simp [Function.comp, Nat.succ_eq_add_one, harr]
    simp only [retryFrom, h0, if_pos rfl, hrec, hmap]
    simp

/-! ### C2: max_retries = 0 -/

/-- C2: with `max_retries = 0`, a single 429 response makes `get` raise
`RateLimitError` immediately: exactly one request attempt, zero sleeps. -/
theorem get_max_retries_zero_fails_fast (cfg : Config) (pf : String → Option ℚ)
    (responses : Nat → Response) (endpoint : String) (params : Obj)
    (limit : Option Int) (offset : Int)
    (h0 : cfg.max_retries = 0)
    (h429 : (responses 0).status_code = 429) :
    (get cfg true pf responses endpoint params limit offset).requests = 1 ∧
    (get cfg true pf responses endpoint params limit offset).sleeps = [] ∧
    (get cfg true pf responses endpoint params limit offset).result =
      .error .rateLimit := by
  have hr : retryFrom cfg pf responses 0 cfg.max_retries = (1, [], none) := by
    rw [h0]
    simp [retryFrom, h429]
  unfold get
  simp [hr]

/-- Witness for C2 at a concrete configuration and upstream. -/
theorem get_max_retries_zero_fails_fast_witness :
    cfgDemoNoRetry.max_retries = 0 ∧
    (responses429 0).status_code = 429 ∧
    ((get cfgDemoNoRetry true pfDemo responses429 "/bill/118" [] none 0).requests = 1 ∧
     (get cfgDemoNoRetry true pfDemo responses429 "/bill/118" [] none 0).sleeps = [] ∧
     (get cfgDemoNoRetry true pfDemo responses429 "/bill/118" [] none 0).result =
       .error .rateLimit) :=
  ⟨rfl, rfl,
   get_max_retries_zero_fails_fast cfgDemoNoRetry pfDemo responses429 "/bill/118"
     [] none 0 rfl rfl⟩

/-! ### C5: non-429 status mapping -/

/-- C5: a non-429 first response is never retried (exactly one request, no
sleeps) and maps to the typed errors: 404 to `NotFoundError`, 401/403 to
`AuthenticationError`, any other non-200 status to `CongressAPIError`
carrying the status code and the response body text. -/
theorem get_status_mapping (cfg : Config) (pf : String → Option ℚ)
    (responses : Nat → Response) (endpoint : String) (params : Obj)
    (limit : Option Int) (offset : Int)
    (h : (responses 0).status_code ≠ 429) :
    (get cfg true pf responses endpoint params limit offset).requests = 1 ∧
    (get cfg true pf responses endpoint params limit offset).sleeps = [] ∧
    ((responses 0).status_code = 404 →
      (get cfg true pf responses endpoint params limit offset).result =
        .error (.notFound ("Resource not found: " ++ endpoint))) ∧
    ((responses 0).status_code = 401 ∨ (responses 0).status_code = 403 →
      (get cfg true pf responses endpoint params limit offset).result =
        .error .authentication) ∧
    ((responses 0).status_code ≠ 404 → (responses 0).status_code ≠ 401 →
      (responses 0).status_code ≠ 403 → (responses 0).status_code ≠ 200 →
      (get cfg true pf responses endpoint params limit offset).result =
        .error (.apiError
          ("API error " ++ toString (responses 0).status_code ++ ": "
            ++ (responses 0).text)
          (responses 0).status_code)) := by
  have hr : retryFrom cfg pf responses 0 cfg.max_retries =
      (1, [], some (responses 0)) := by
    cases hm : cfg.max_retries with
    | zero => simp [retryFrom, h]
    | succ m => simp [retryFrom, h]
  refine ⟨?_, ?_, ?_, ?_, ?_⟩
  · unfold get
    simp [hr]
  · unfold get
    simp [hr]
  · intro h404
    unfold get
    simp [hr, h404]
  · intro hauth
    unfold get
    rcases hauth with h401 | h403
    · simp [hr, h401]
    · simp [hr, h403]
  · intro h404 h401 h403 h200
    unfold get
    simp [hr, h404, h401, h403, h200]

/-- Witness for C5 at a concrete 500 upstream (and 404/401 variants are
covered by the hypotheses being dischargeable the same way). -/
theorem get_status_mapping_witness :
    (responses500 0).status_code ≠ 429 ∧
    ((get cfgDemo true pfDemo responses500 "/bill/118" [] none 0).requests = 1 ∧
     (get cfgDemo true pfDemo responses500 "/bill/118" [] none 0).result =
       .error (.apiError "API error 500: Internal server error" 500)) := by
  have h := get_status_mapping cfgDemo pfDemo responses500 "/bill/118" [] none 0
    (by decide)
  exact ⟨by decide, h.1, by
    have := h.2.2.2.2 (by decide) (by decide) (by decide) (by decide)
    simpa using this⟩

/-! ### C1: retry with backoff under rate limiting -/

/-- C1: against `k ≤ max_retries` consecutive 429 responses, `get` breaks out
of the retry loop on the `(k+1)`-th request attempt after exactly `k` sleeps,
each delay taken from the parseable `Retry-After` header when present and
otherwise `retry_base_delay * 2 ^ i` for attempt `i` (from 0); it then
succeeds when that final response is a 200.  Against `max_retries + 1`
consecutive 429s it raises `RateLimitError` after exactly `max_retries`
sleeps with the same delay schedule. -/
theorem get_retry_backoff (cfg : Config) (pf : String → Option ℚ)
    (responses : Nat → Response) (endpoint : String) (params : Obj)
    (limit : Option Int) (offset : Int) (k : Nat)
    (hk : k ≤ cfg.max_retries)
    (h429 : ∀ i, i < k → (responses i).status_code = 429) :
    ((responses k).status_code ≠ 429 →
      (get cfg true pf responses endpoint params limit offset).requests = k + 1 ∧
      (get cfg true pf responses endpoint params limit offset).sleeps =
        (List.range k).map (fun i =>
          match (responses i).retryAfter with
          | some ra =>
            match pf ra with
            | some d => d
            | none => cfg.retry_base_delay * 2 ^ i
          | none => cfg.retry_base_delay * 2 ^ i) ∧
      (∀ data, (responses k).status_code = 200 →
        normalizePagination cfg (buildParams cfg params limit offset) offset
          (responses k).json = some data →
        (get cfg true pf responses endpoint params limit offset).result =
          .ok data)) ∧
    (k = cfg.max_retries → (responses k).status_code = 429 →
      (get cfg true pf responses endpoint params limit offset).result =
        .error .rateLimit ∧
      (get cfg true pf responses endpoint params limit offset).requests =
        cfg.max_retries + 1 ∧
      (get cfg true pf responses endpoint params limit offset).sleeps =
        (List.range cfg.max_retries).map (fun i =>
          match (responses i).retryAfter with
          | some ra =>
            match pf ra with
            | some d => d
            | none => cfg.retry_base_delay * 2 ^ i
          | none => cfg.retry_base_delay * 2 ^ i)) := by
  constructor
  · intro hstop
    have hr := retryFrom_success cfg pf responses k 0 cfg.max_retries hk
      (by simpa using h429) (by simpa using hstop)
    simp only [Nat.zero_add] at hr
    refine ⟨?_, ?_, ?_⟩
    · unfold get
      simp [hr]
    · unfold get
      simp [hr, computeDelay]
    · intro data h200 hnorm
      unfold get
      simp [hr, h200, hnorm]
  · intro hke h429k
    have hall : ∀ i, i ≤ cfg.max_retries → (responses (0 + i)).status_code = 429 := by
      intro i hi
      simp only [Nat.zero_add]
      rcases Nat.lt_or_ge i cfg.max_retries with hlt | hge
      · exact h429 i (by omega)
      · have hieq : i = k := by omega
        rw [hieq]
        exact h429k
    have hr := retryFrom_exhausted cfg pf responses cfg.max_retries 0 hall
    simp only [Nat.zero_add] at hr
    refine ⟨?_, ?_, ?_⟩
    · unfold get
      simp [hr]
    · unfold get
      simp [hr]
    · unfold get
      simp [hr, computeDelay]

/-- Witness for C1: two 429s (the first with `Retry-After: 7`) then a 200;
the call issues three requests and sleeps 7 s then `1 * 2 ^ 1 = 2` s; and an
all-429 upstream exhausts the three default retries. -/
theorem get_retry_backoff_witness :
    (1 ≤ cfgDemo.max_retries ∧
     (∀ i, i < 1 → (responses429 i).status_code = 429) ∧
     (responses429 1).status_code = 429) ∧
    (2 ≤ cfgDemo.max_retries ∧
     (∀ i, i < 2 → (responsesDemo i).status_code = 429) ∧
     (responsesDemo 2).status_code ≠ 429 ∧
     (get cfgDemo true pfDemo responsesDemo "/bill/118" [] none 0).requests = 3 ∧
     (get cfgDemo true pfDemo responsesDemo "/bill/118" [] none 0).sleeps =
       [7, 2]) ∧
    ((get cfgDemo true pfDemo responses429 "/bill/118" [] none 0).result =
       .error .rateLimit ∧
     (get cfgDemo true pfDemo responses429 "/bill/118" [] none 0).requests = 4 ∧
     (get cfgDemo true pfDemo responses429 "/bill/118" [] none 0).sleeps =
       [1, 2, 4]) := by
  have hsucc := (get_retry_backoff cfgDemo pfDemo responsesDemo "/bill/118" []
    none 0 2 (by decide) (fun i hi => by interval_cases i <;> rfl)).1
    (by decide)
  have hfail := (get_retry_backoff cfgDemo pfDemo responses429 "/bill/118" []
    none 0 3 (by decide) (fun i hi => rfl)).2 rfl rfl
  refine ⟨⟨by decide, fun i hi => rfl, rfl⟩, ⟨by decide, fun i hi => by
    interval_cases i <;> rfl, by decide, hsucc.1, ?_⟩, hfail.1, hfail.2.1, ?_⟩
  · rw [hsucc.2.1]
    norm_num [List.range_succ, pfDemo, responsesDemo, cfgDemo]
  · rw [hfail.2.2]
    norm_num [List.range_succ, responses429, cfgDemo]

/-! ### C6: pagination normalization -/

/-- C6: a 200 response whose body has non-empty pagination metadata with an
integer count is augmented with a `_pagination` block: `total_count` is the
reported count, `has_more` is `offset + effective_limit < total_count` with
the effective limit the clamped caller limit, and `next_offset` is
`offset + effective_limit` when more pages remain and null otherwise; the
caller-supplied parameter mapping is left unchanged. -/
theorem get_pagination_block (cfg : Config) (pf : String → Option ℚ)
    (responses : Nat → Response) (endpoint : String) (params : Obj)
    (l : Int) (offset : Int) (pobj : Obj) (tc : Int)
    (h200 : (responses 0).status_code = 200)
    (hpag : dictGet (responses 0).json "pagination" = some (.obj pobj))
    (hne : pobj ≠ [])
    (hcount : dictGet pobj "count" = some (.num tc)) :
    (get cfg true pf responses endpoint params (some l) offset).result =
      .ok (dictSet (responses 0).json "_pagination" (.obj
        [("total_count", .num tc),
         ("has_more", .bool (decide (offset + min l cfg.max_limit < tc))),
         ("next_offset",
          if offset + min l cfg.max_limit < tc then
            .num (offset + min l cfg.max_limit)
          else .null)])) ∧
    (get cfg true pf responses endpoint params (some l) offset).callerParamsAfter
      = params := by
  have hstop : (responses 0).status_code ≠ 429 := by
    rw [h200]
    decide
  have hr : retryFrom cfg pf responses 0 cfg.max_retries =
      (1, [], some (responses 0)) := by
    cases hm : cfg.max_retries with
    | zero => simp [retryFrom, hstop]
    | succ m => simp [retryFrom, hstop]
  have hnorm : normalizePagination cfg (buildParams cfg params (some l) offset)
      offset (responses 0).json =
      some (dictSet (responses 0).json "_pagination" (.obj
        [("total_count", .num tc),
         ("has_more", .bool (decide (offset + min l cfg.max_limit < tc))),
         ("next_offset",
          if offset + min l cfg.max_limit < tc then
            .num (offset + min l cfg.max_limit)
          else .null)])) := by
    unfold normalizePagination
    have h1 : dictGetD (responses 0).json "pagination" (.obj []) = .obj pobj := by
      unfold dictGetD
      rw [hpag]
      rfl
    have h2 : dictGetD pobj "count" (.num 0) = .num tc := by
      unfold dictGetD
      rw [hcount]
      rfl
    have h3 : dictGetD (buildParams cfg params (some l) offset) "limit"
        (.num cfg.default_limit) = .num (min l cfg.max_limit) := by
      unfold dictGetD
      rw [buildParams_limit]
      rfl
    rw [h1]
    have htr : jTruthy (.obj pobj) = true := by
      simp [jTruthy, hne]
    simp only [htr, if_true, h2, h3]
  refine ⟨?_, ?_⟩
  · unfold get
    simp [hr, h200, hnorm]
  · unfold get
    simp

/-- Witness for C6: the demo 200 body reports `count = 30`; with limit 10 and
offset 0 the added block is `total_count = 30`, `has_more = true`,
`next_offset = 10`, and the caller's params are unchanged. -/
theorem get_pagination_block_witness :
    ((responsesDemo 2).status_code = 200 ∧
      dictGet (responsesDemo 2).json "pagination" = some (.obj [("count", .num 30)])) ∧
    ((get cfgDemo true pfDemo (fun _ => responsesDemo 2) "/bill/118"
        [("x", .str "y")] (some 10) 0).result =
      .ok [("bills", .arr []),
           ("pagination", .obj [("count", .num 30)]),
           ("_pagination", .obj
             [("total_count", .num 30),
              ("has_more", .bool true),
              ("next_offset", .num 10)])] ∧
     (get cfgDemo true pfDemo (fun _ => responsesDemo 2) "/bill/118"
        [("x", .str "y")] (some 10) 0).callerParamsAfter = [("x", .str "y")]) := by
  have h := get_pagination_block cfgDemo pfDemo (fun _ => responsesDemo 2)
    "/bill/118" [("x", .str "y")] 10 0 [("count", .num 30)] 30 rfl rfl
    (List.cons_ne_nil _ _) rfl
  refine ⟨⟨rfl, rfl⟩, ?_, h.2⟩
  rw [h.1]
  rfl

/-! ### C8: result extraction -/

/-- C8 counterexample: on a response whose first present key ("bills") holds
a non-list value and whose later key ("members") holds a list, the code keeps
scanning and returns the later list, whereas the claimed rule (value of the
first matching key if it is a list, else an empty list) returns the empty
list. -/
theorem extract_results_not_first_present :
    extract_results mixedKeysResponse = [.null] ∧
    extractFirstPresentSpec mixedKeysResponse = [] ∧
    extract_results mixedKeysResponse ≠ extractFirstPresentSpec mixedKeysResponse := by
  refine ⟨rfl, rfl, ?_⟩
  intro h
  have h1 : extract_results mixedKeysResponse = [JVal.null] := rfl
  have h2 : extractFirstPresentSpec mixedKeysResponse = [] := rfl
  rw [h1, h2] at h
  exact List.cons_ne_nil _ _ h

theorem extractScan_eq_findSome (response : Obj) (ks : List String) :
    extractScan response ks =
      (ks.findSome? (fun k =>
        match dictGet response k with
        | some (.arr l) => some l
        | _ => none)).getD [] := by
  induction ks with
  | nil => rfl
  | cons k ks ih =>
    cases hd : dictGet response k with
    | none => simp [extractScan, hd, List.findSome?_cons, ih]
    | some v => cases v <;> simp [extractScan, hd, List.findSome?_cons, ih]

/-- C8 (amended): `_extract_results` scans the fixed ordered key list and
returns the value of the first key whose value in the response is a list;
keys present with a non-list value are skipped; when no key holds a list it
returns an empty list. -/
theorem extract_results_first_list_valued (response : Obj) :
    extract_results response =
      (result_keys.findSome? (fun k =>
        match dictGet response k with
        | some (.arr l) => some l
        | _ => none)).getD [] :=
  extractScan_eq_findSome response result_keys

/-! ### C7: auto-pagination -/

theorem extract_results_resultsPage (l : List JVal) (c : Int) :
    extract_results
      [("results", .arr l), ("pagination", .obj [("count", .num c)])] = l := rfl

theorem paginationLookup (l : List JVal) (c : Int) :
    dictGetD [("results", .arr l), ("pagination", .obj [("count", .num c)])]
      "pagination" (.obj []) = .obj [("count", .num c)] := rfl

theorem countLookup (c : Int) :
    dictGetD [("count", .num c)] "count" (.num 0) = .num c := rfl

theorem getAllLoop_pageServer_none (items : List JVal) (b : Int) (hb : 0 < b) :
    ∀ (fuel o reqs : Nat),
      o ≤ items.length →
      items.length < o + fuel * b.toNat →
      ∃ r, getAllLoop (pageServer items) none b fuel (o : Int) (items.take o) reqs =
        .ok (some (items, r)) := by
  intro fuel
  induction fuel with
  | zero =>
    intro o reqs h1 h3
    exfalso
    simp at h3
    omega
  | succ fuel ih =>
    intro o reqs h1 h3
    have hbt : (b.toNat : Int) = b := Int.toNat_of_nonneg hb.le
    have hslice : pyTake (items.drop ((o : Int)).toNat) b =
        (items.drop o).take b.toNat := by
      rw [pyTake, if_pos hb.le]
      simp
    have hacc : items.take o ++ (items.drop o).take b.toNat =
        items.take (o + b.toNat) := (List.take_add items o b.toNat).symm
    simp only [getAllLoop, pageServer, hslice, extract_results_resultsPage,
      truthyOptInt, Bool.false_and, Bool.false_eq_true, if_false, hacc,
      paginationLookup, countLookup]
    by_cases hcase : (items.length : Int) ≤ (o : Int) + b
    · have hdec : decide ((items.length : Int) ≤ (o : Int) + b) = true :=
        decide_eq_true hcase
      have htake : items.take (o + b.toNat) = items :=
        List.take_of_length_le (by omega)
      rw [hdec, Bool.true_or, if_pos rfl, htake]
      exact ⟨reqs + 1, rfl⟩
    · have hdec : decide ((items.length : Int) ≤ (o : Int) + b) = false :=
        decide_eq_false hcase
      have hlt : o + b.toNat < items.length := by omega
      have hne : ((items.drop o).take b.toNat).isEmpty = false := by
        rw [List.isEmpty_eq_false]
        intro hnil
        have := congrArg List.length hnil
        simp at this
        omega
      have hoff : ((o + b.toNat : ℕ) : ℤ) = (o : ℤ) + b := by
        push_cast
        omega
      rw [Nat.succ_mul] at h3
      obtain ⟨r, hrec⟩ := ih (o + b.toNat) (reqs + 1) (by omega) (by omega)
      rw [hoff] at hrec
      rw [hdec, hne, Bool.or_self, if_neg (by simp), hrec]
      exact ⟨r, rfl⟩

theorem getAllLoop_pageServer_some (items : List JVal) (m b : Int)
    (hm : 0 < m) (hb : 0 < b) :
    ∀ (fuel o reqs : Nat),
      o ≤ items.length →
      (o : Int) < m →
      items.length < o + fuel * b.toNat →
      ∃ res r,
        getAllLoop (pageServer items) (some m) b fuel (o : Int) (items.take o) reqs =
          .ok (some (res, r)) ∧
        res.length = min m.toNat items.length := by
  intro fuel
  induction fuel with
  | zero =>
    intro o reqs h1 h2 h3
    exfalso
    simp at h3
    omega
  | succ fuel ih =>
    intro o reqs h1 h2 h3
    have hbt : (b.toNat : Int) = b := Int.toNat_of_nonneg hb.le
    have hmt : (m.toNat : Int) = m := Int.toNat_of_nonneg hm.le
    have hslice : pyTake (items.drop ((o : Int)).toNat) b =
        (items.drop o).take b.toNat := by
      rw [pyTake, if_pos hb.le]
      simp
    have hacc : items.take o ++ (items.drop o).take b.toNat =
        items.take (o + b.toNat) := (List.take_add items o b.toNat).symm
    have htru : truthyOptInt (some m) = true := by
      simp [truthyOptInt, hm.ne']
    have hlacc : (items.take (o + b.toNat)).length = min (o + b.toNat) items.length := by
      simp
    simp only [getAllLoop, pageServer, hslice, extract_results_resultsPage,
      hacc, htru, Bool.true_and, Option.getD_some, paginationLookup,
      countLookup]
    by_cases htrunc : m ≤ ((items.take (o + b.toNat)).length : Int)
    · have hdec : decide (m ≤ ((items.take (o + b.toNat)).length : Int)) = true :=
        decide_eq_true htrunc
      refine ⟨pyTake (items.take (o + b.toNat)) m, reqs + 1, ?_, ?_⟩
      · rw [hdec, if_pos rfl]
      · rw [pyTake, if_pos hm.le]
        rw [hlacc] at htrunc
        simp only [List.length_take, hlacc]
        omega
    · have hdec : decide (m ≤ ((items.take (o + b.toNat)).length : Int)) = false :=
        decide_eq_false htrunc
      rw [hlacc] at htrunc
      rw [hdec, if_neg (by simp)]
      by_cases hcase : (items.length : Int) ≤ (o : Int) + b
      · have hdec2 : decide ((items.length : Int) ≤ (o : Int) + b) = true :=
          decide_eq_true hcase
        have htake : items.take (o + b.toNat) = items :=
          List.take_of_length_le (by omega)
        refine ⟨items.take (o + b.toNat), reqs + 1, ?_, ?_⟩
        · rw [hdec2, Bool.true_or, if_pos rfl]
        · rw [htake]
          omega
      · have hdec2 : decide ((items.length : Int) ≤ (o : Int) + b) = false :=
          decide_eq_false hcase
        have hlt : o + b.toNat < items.length := by omega
        have hne : ((items.drop o).take b.toNat).isEmpty = false := by
          rw [List.isEmpty_eq_false]
          intro hnil
          have := congrArg List.length hnil
          simp at this
          omega
        have hoff : ((o + b.toNat : ℕ) : ℤ) = (o : ℤ) + b := by
          push_cast
          omega
        rw [Nat.succ_mul] at h3
        obtain ⟨res, r, hrec, hlen⟩ := ih (o + b.toNat) (reqs + 1) (by omega)
          (by rw [hoff]; omega) (by omega)
        rw [hoff] at hrec
        refine ⟨res, r, ?_, hlen⟩
        rw [hdec2, hne, Bool.or_self, if_neg (by simp), hrec]

theorem get_all_complete_none (cfg : Config) (items : List JVal) (fuel : Nat)
    (hml : 0 < cfg.max_limit)
    (hfuel : items.length < fuel * cfg.max_limit.toNat) :
    ∃ r, get_all cfg (pageServer items) none fuel =
      .ok (some ([("results", .arr items), ("count", .num items.length)], r)) := by
  obtain ⟨r, hr⟩ := getAllLoop_pageServer_none items cfg.max_limit hml fuel 0 0
    (Nat.zero_le _) (by simpa using hfuel)
  have hr' : getAllLoop (pageServer items) none cfg.max_limit fuel 0 [] 0 =
      .ok (some (items, r)) := by
    simpa using hr
  refine ⟨r, ?_⟩
  unfold get_all
  simp [hr', min_self]

theorem get_all_capped_some (cfg : Config) (items : List JVal) (m : Int)
    (fuel : Nat) (hml : 0 < cfg.max_limit) (hm : 0 < m)
    (hfuel : items.length < fuel * (min m cfg.max_limit).toNat) :
    ∃ res r, get_all cfg (pageServer items) (some m) fuel =
      .ok (some ([("results", .arr res), ("count", .num res.length)], r)) ∧
      res.length = min m.toNat items.length := by
  have hb : 0 < min m cfg.max_limit := lt_min hm hml
  obtain ⟨res, r, hr, hlen⟩ := getAllLoop_pageServer_some items m
    (min m cfg.max_limit) hm hb fuel 0 0 (Nat.zero_le _)
    (by exact_mod_cast hm) (by simpa using hfuel)
  have hr' : getAllLoop (pageServer items) (some m) (min m cfg.max_limit) fuel
      0 [] 0 = .ok (some (res, r)) := by
    simpa using hr
  refine ⟨res, r, ?_, hlen⟩
  unfold get_all
  simp [hr', hm.ne']

set_option maxRecDepth 40000 in
theorem get_all_demo_100_of_500 :
    get_all cfgDemo (pageServer (List.replicate 500 .null)) (some 100) 10 =
      .ok (some ([("results", .arr (List.replicate 100 .null)),
                  ("count", .num 100)], 1)) := rfl

set_option maxRecDepth 40000 in
theorem get_all_demo_two_pages :
    get_all cfgDemo (pageServer (List.replicate 400 .null)) none 10 =
      .ok (some ([("results", .arr (List.replicate 400 .null)),
                  ("count", .num 400)], 2)) := rfl

/-- C7: `get_all` against a consistent upstream returns, with `count` equal
to the item-list length: all `total_count` items when `max_results` is not
given, and `min max_results total_count` items when it is; in particular
`max_results = 100` against 500 reported items yields exactly 100 items after
a single page request, and 400 items with the default batch size 250 are
fetched in exactly two page requests. -/
theorem get_all_pagination_invariant (cfg : Config) (items : List JVal)
    (m : Int) (fuel : Nat) :
    (0 < cfg.max_limit → 0 < m →
      items.length < fuel * (min m cfg.max_limit).toNat →
      ∃ res r, get_all cfg (pageServer items) (some m) fuel =
        .ok (some ([("results", .arr res), ("count", .num res.length)], r)) ∧
        res.length = min m.toNat items.length) ∧
    (0 < cfg.max_limit → items.length < fuel * cfg.max_limit.toNat →
      ∃ r, get_all cfg (pageServer items) none fuel =
        .ok (some ([("results", .arr items), ("count", .num items.length)], r))) ∧
    get_all cfgDemo (pageServer (List.replicate 500 .null)) (some 100) 10 =
      .ok (some ([("results", .arr (List.replicate 100 .null)),
                  ("count", .num 100)], 1)) ∧
    get_all cfgDemo (pageServer (List.replicate 400 .null)) none 10 =
      .ok (some ([("results", .arr (List.replicate 400 .null)),
                  ("count", .num 400)], 2)) :=
  ⟨fun h1 h2 h3 => get_all_capped_some cfg items m fuel h1 h2 h3,
   fun h1 h2 => get_all_complete_none cfg items fuel h1 h2,
   get_all_demo_100_of_500, get_all_demo_two_pages⟩

/-- Witness for C7 at a 3-item upstream with `max_results = 2`. -/
theorem get_all_pagination_invariant_witness :
    (0 < cfgDemo.max_limit ∧ 0 < (2 : Int) ∧
      (List.replicate 3 JVal.null).length < 2 * (min 2 cfgDemo.max_limit).toNat ∧
      (List.replicate 3 JVal.null).length < 2 * cfgDemo.max_limit.toNat) ∧
    (∃ res r, get_all cfgDemo (pageServer (List.replicate 3 JVal.null)) (some 2) 2 =
        .ok (some ([("results", .arr res), ("count", .num res.length)], r)) ∧
        res.length = min (2 : Int).toNat (List.replicate 3 JVal.null).length) ∧
    (∃ r, get_all cfgDemo (pageServer (List.replicate 3 JVal.null)) none 2 =
        .ok (some ([("results", .arr (List.replicate 3 JVal.null)),
                    ("count", .num (List.replicate 3 JVal.null).length)], r))) := by
  have h := get_all_pagination_invariant cfgDemo (List.replicate 3 JVal.null) 2 2
  exact ⟨⟨by decide, by decide, by decide, by decide⟩,
    h.1 (by decide) (by decide) (by decide),
    h.2.1 (by decide) (by decide)⟩

/-! ### C9: bounded concurrent detail fetch -/

theorem gather_safe_get_ok (doGet : String → Except GetError Obj) :
    ∀ (l : List String),
      (∀ ep ∈ l, isHardOutcome (doGet ep) = false) →
      gather (safe_get doGet) l = .ok (l.map (fun ep =>
        match doGet ep with
        | .ok d => some d
        | .error _ => none)) := by
  intro l
  induction l with
  | nil => intro h; rfl
  | cons ep l ih =>
    intro h
    have hep := h ep (List.mem_cons_self ep l)
    have hrest := ih (fun e he => h e (List.mem_cons_of_mem ep he))
    cases hd : doGet ep with
    | ok d => simp [gather, safe_get, hd, hrest]
    | error e =>
      have he : isHardError e = false := by
        simpa [isHardOutcome, hd] using hep
      simp [gather, safe_get, hd, he, hrest]

theorem gather_safe_get_hard (doGet : String → Except GetError Obj) :
    ∀ (l : List String),
      (∃ ep ∈ l, isHardOutcome (doGet ep) = true) →
      ∃ e, gather (safe_get doGet) l = .error e ∧ isHardError e = true := by
  intro l
  induction l with
  | nil =>
    rintro ⟨ep, hmem, _⟩
    simp at hmem
  | cons ep l ih =>
    rintro ⟨e0, he0, hhard⟩
    rcases List.mem_cons.mp he0 with rfl | hmem
    · cases hd : doGet e0 with
      | ok d =>
        rw [hd] at hhard
        simp [isHardOutcome] at hhard
      | error e =>
        have hh : isHardError e = true := by
          simpa [isHardOutcome, hd] using hhard
        exact ⟨e, by simp [gather, safe_get, hd, hh], hh⟩
    · cases hd : doGet ep with
      | ok d =>
        obtain ⟨e, he, hh⟩ := ih ⟨e0, hmem, hhard⟩
        exact ⟨e, by simp [gather, safe_get, hd, he], hh⟩
      | error e' =>
        by_cases hh' : isHardError e' = true
        · exact ⟨e', by simp [gather, safe_get, hd, hh'], hh'⟩
        · obtain ⟨e, he, hh⟩ := ih ⟨e0, hmem, hhard⟩
          have hf : isHardError e' = false := by simpa using hh'
          exact ⟨e, by simp [gather, safe_get, hd, hf, he], hh⟩

/-- C9: `fetch_details_concurrent` truncates its endpoint list to
`max_concurrent` entries and: when no endpoint raises `RateLimitError` or
`AuthenticationError` (or another escaping exception), it returns a list in
positional correspondence with the truncated input, a response at each
successful position and `None` at each soft-failed position; and when any
truncated endpoint's fetch raises `RateLimitError` or `AuthenticationError`,
the whole call propagates an escaping error instead of returning a list. -/
theorem fetch_details_concurrent_spec (doGet : String → Except GetError Obj)
    (endpoints : List String) (max_concurrent : Nat) :
    ((∀ ep ∈ endpoints.take max_concurrent, isHardOutcome (doGet ep) = false) →
      fetch_details_concurrent doGet endpoints max_concurrent =
        .ok ((endpoints.take max_concurrent).map (fun ep =>
          match doGet ep with
          | .ok d => some d
          | .error _ => none))) ∧
    ((∃ ep ∈ endpoints.take max_concurrent,
        doGet ep = .error .rateLimit ∨ doGet ep = .error .authentication) →
      ∃ e, fetch_details_concurrent doGet endpoints max_concurrent = .error e ∧
        isHardError e = true) := by
  constructor
  · intro h
    unfold fetch_details_concurrent
    exact gather_safe_get_ok doGet _ h
  · rintro ⟨ep, hmem, hcase⟩
    unfold fetch_details_concurrent
    apply gather_safe_get_hard
    refine ⟨ep, hmem, ?_⟩
    rcases hcase with h | h <;> simp [isHardOutcome, h, isHardError]

/-- Witness for C9: two soft endpoints give `[response, None]`; adding an
endpoint that rate-limits makes the whole call fail. -/
theorem fetch_details_concurrent_spec_witness :
    ((∀ ep ∈ (["/d/0", "/d/1"] : List String).take 25,
        isHardOutcome (doGetDemo ep) = false) ∧
      fetch_details_concurrent doGetDemo ["/d/0", "/d/1"] 25 =
        .ok [some [("hearing", .obj [("x", .num 1)])], none]) ∧
    (∃ e, fetch_details_concurrent doGetDemo ["/d/0", "/d/9"] 25 = .error e ∧
      isHardError e = true) := by
  have h1 := (fetch_details_concurrent_spec doGetDemo ["/d/0", "/d/1"] 25).1
  have h2 := (fetch_details_concurrent_spec doGetDemo ["/d/0", "/d/9"] 25).2
  refine ⟨⟨?_, ?_⟩, h2 ⟨"/d/9", by simp, Or.inl rfl⟩⟩
  · intro ep hep
    fin_cases hep <;> rfl
  · rw [h1 (by intro ep hep; fin_cases hep <;> rfl)]
    rfl

/-! ### C10: list enrichment -/

theorem alookup_not_mem {α : Type} :
    ∀ (l : List (String × α)) (k : String), k ∉ l.map Prod.fst →
      alookup l k = none := by
  intro l
  induction l with
  | nil => intro k _; rfl
  | cons p l ih =>
    intro k hk
    obtain ⟨a, b⟩ := p
    have ha : a ≠ k := by
      intro h
      exact hk (by simp [h])
    simp only [alookup, if_neg ha]
    exact ih k (fun h => hk (by simp [h]))

theorem alookup_zip_map (f : String → Option Obj) :
    ∀ (l : List String) (ep : String),
      alookup (l.zip (l.map f)) ep =
        if ep ∈ l then some (f ep) else none := by
  intro l
  induction l with
  | nil => intro ep; simp [alookup]
  | cons a l ih =>
    intro ep
    rw [List.map_cons, List.zip_cons_cons]
    by_cases ha : a = ep
    · subst ha
      simp [alookup]
    · simp only [alookup, if_neg ha]
      rw [ih ep]
      simp [List.mem_cons, Ne.symm ha]

theorem buildDetailMapAux_lookup (dk : String) :
    ∀ (pairs : List (String × Option Obj)) (m : List (String × Obj))
      (ep : String), (pairs.map Prod.fst).Nodup →
      alookup (buildDetailMapAux dk m pairs) ep =
        match alookup pairs ep with
        | some dr =>
          match detailPayload dk dr with
          | some dd => some dd
          | none => alookup m ep
        | none => alookup m ep := by
  intro pairs
  induction pairs with
  | nil => intro m ep _; rfl
  | cons p rest ih =>
    intro m ep hnodup
    obtain ⟨k0, dr0⟩ := p
    have hnd : (rest.map Prod.fst).Nodup := (List.nodup_cons.mp hnodup).2
    have hk0 : k0 ∉ rest.map Prod.fst := (List.nodup_cons.mp hnodup).1
    by_cases hk : k0 = ep
    · subst hk
      have hrest : alookup rest k0 = none := alookup_not_mem rest k0 hk0
      cases hpay : detailPayload dk dr0 with
      | some dd =>
        simp [buildDetailMapAux, hpay, ih _ k0 hnd, hrest, alookup,
          alookup_aset_self]
      | none =>
        simp [buildDetailMapAux, hpay, ih _ k0 hnd, hrest, alookup]
    · cases hpay : detailPayload dk dr0 with
      | some dd =>
        simp only [buildDetailMapAux, hpay, ih _ ep hnd]
        have hm : alookup (aset m k0 dd) ep = alookup m ep :=
          alookup_aset_ne m k0 ep dd (Ne.symm hk)
        have hhead : alookup ((k0, dr0) :: rest) ep = alookup rest ep := by
          simp [alookup, hk]
        rw [hhead, hm]
      | none =>
        simp only [buildDetailMapAux, hpay, ih _ ep hnd]
        have hhead : alookup ((k0, dr0) :: rest) ep = alookup rest ep := by
          simp [alookup, hk]
        rw [hhead]

/-- On the detail map built inside `enrich_list_response`, the entry for an
endpoint in the fetched list is exactly `itemDetail`. -/
theorem detail_map_lookup (doGet : String → Except GetError Obj) (dk : String)
    (eps : List String) (ep : String) (hnodup : eps.Nodup) (hmem : ep ∈ eps) :
    alookup (buildDetailMap dk (eps.zip (eps.map (fun e =>
      match doGet e with
      | .ok d => some d
      | .error _ => none)))) ep = itemDetail doGet dk ep := by
  have hkeys : ((eps.zip (eps.map (fun e =>
      match doGet e with
      | .ok d => some d
      | .error _ => none))).map Prod.fst).Nodup := by
    rw [List.map_fst_zip]
    · exact hnodup
    · simp
  unfold buildDetailMap
  rw [buildDetailMapAux_lookup dk _ [] ep hkeys,
    alookup_zip_map _ eps ep, if_pos hmem]
  unfold itemDetail
  show (match detailPayload dk (match doGet ep with
      | .ok d => some d
      | .error _ => none) with
    | some dd => some dd
    | none => (none : Option Obj)) =
    detailPayload dk (match doGet ep with
      | .ok d => some d
      | .error _ => none)
  generalize detailPayload dk (match doGet ep with
      | .ok d => some d
      | .error _ => none) = X
  cases X <;> rfl

theorem mergeItems_spec (dm : List (String × Obj)) (eps : List String) :
    ∀ (items : List JVal) (i : Nat),
      (∀ it ∈ items, it.isObj = true) →
      mergeItems dm eps items i =
        .ok (mergeAll dm eps i items, failedAll dm eps i items) := by
  intro items
  induction items with
  | nil => intro i _; rfl
  | cons item rest ih =>
    intro i h
    have hitem := h item (List.mem_cons_self item rest)
    have hrest := ih (i + 1) (fun it hit => h it (List.mem_cons_of_mem item hit))
    cases he : eps[i]? with
    | some ep =>
      cases hl : alookup dm ep with
      | some dd =>
        obtain ⟨io, rfl⟩ : ∃ o, item = .obj o := by
          cases item <;> simp [JVal.isObj] at hitem
          exact ⟨_, rfl⟩
        simp [mergeItems, he, hl, hrest, mergeAll, mergeOne, failedAll]
      | none =>
        simp [mergeItems, he, hl, hrest, mergeAll, mergeOne, failedAll]
    | none =>
      simp [mergeItems, he, hrest, mergeAll, mergeOne, failedAll]

theorem mergeAll_length (dm : List (String × Obj)) (eps : List String) :
    ∀ (items : List JVal) (i : Nat),
      (mergeAll dm eps i items).length = items.length := by
  intro items
  induction items with
  | nil => intro i; rfl
  | cons item rest ih => intro i; simp [mergeAll, ih]

theorem mergeAll_getElem (dm : List (String × Obj)) (eps : List String) :
    ∀ (items : List JVal) (i j : Nat),
      (mergeAll dm eps i items)[j]? =
        (items[j]?).map (fun it => mergeOne dm eps (i + j) it) := by
  intro items
  induction items with
  | nil => intro i j; simp [mergeAll]
  | cons item rest ih =>
    intro i j
    cases j with
    | zero => simp [mergeAll]
    | succ j =>
      have harr : i + 1 + j = i + (j + 1) := by omega
      simp only [mergeAll, List.getElem?_cons_succ]
      rw [ih (i + 1) j, harr]

theorem failedAll_empty_of_overflow (dm : List (String × Obj))
    (eps : List String) :
    ∀ (items : List JVal) (i : Nat), eps.length ≤ i →
      failedAll dm eps i items = [] := by
  intro items
  induction items with
  | nil => intro i _; rfl
  | cons item rest ih =>
    intro i hi
    have he : eps[i]? = none := by
      rw [List.getElem?_eq_none_iff]
      exact hi
    simp [failedAll, he, ih (i + 1) (by omega)]

theorem failedAll_eq_filter (dm : List (String × Obj)) (eps : List String) :
    ∀ (items : List JVal) (i : Nat),
      eps.length ≤ i + items.length →
      failedAll dm eps i items =
        (eps.drop i).filter (fun ep => (alookup dm ep).isNone) := by
  intro items
  induction items with
  | nil =>
    intro i h
    simp only [List.length_nil, Nat.add_zero] at h
    rw [List.drop_eq_nil_of_le h]
    rfl
  | cons item rest ih =>
    intro i h
    rw [List.length_cons] at h
    cases he : eps[i]? with
    | none =>
      have hlen : eps.length ≤ i := by
        rw [← List.getElem?_eq_none_iff]
        exact he
      rw [List.drop_eq_nil_of_le hlen]
      simp [failedAll, he, failedAll_empty_of_overflow dm eps rest (i + 1)
        (by omega)]
    | some ep =>
      have hi : i < eps.length := by
        rcases List.getElem?_eq_some_iff.mp he with ⟨hlt, _⟩
        exact hlt
      have hget : eps[i] = ep := by
        rcases List.getElem?_eq_some_iff.mp he with ⟨hlt, hv⟩
        exact hv
      have hdrop : eps.drop i = ep :: eps.drop (i + 1) := by
        rw [List.drop_eq_getElem_cons hi, hget]
      rw [hdrop]
      by_cases hs : (alookup dm ep).isSome = true
      · have hn : (alookup dm ep).isNone = false := by
          simp [Option.isNone_eq_false_iff, ← Option.isSome_iff_ne_none, hs]
        simp [failedAll, he, hs, hn, ih (i + 1) (by omega)]
      · have hn : (alookup dm ep).isNone = true := by
          simp only [Option.isNone_iff_eq_none]
          rcases hx : alookup dm ep with _ | v
          · rfl
          · rw [hx] at hs
            simp at hs
        simp [failedAll, he, hs, hn, ih (i + 1) (by omega)]

/-- C10: `enrich_list_response` keeps the item list's length and order; an
item within the concurrency cap whose detail fetch produced a usable payload
becomes the summary merged with that payload, detail fields overriding; an
item beyond the cap or whose fetch failed is returned unchanged; `_warnings`
lists one message naming each failed endpoint and is absent when nothing
within the cap failed; and an empty item list returns the input unchanged. -/
theorem enrich_list_response_spec (doGet : String → Except GetError Obj)
    (lr : Obj) (rk dk : String) (be : JVal → String) (mc : Nat)
    (items : List JVal)
    (hitems : dictGet lr rk = some (.arr items))
    (hobj : ∀ it ∈ items, it.isObj = true)
    (hnodup : ((items.take mc).map be).Nodup)
    (hsoft : ∀ it ∈ items.take mc, isHardOutcome (doGet (be it)) = false)
    (hw : dictGet lr "_warnings" = none)
    (hrk : rk ≠ "_warnings") :
    (items = [] → enrich_list_response doGet lr rk dk be mc = .ok lr) ∧
    (items ≠ [] →
      ∃ out enriched,
        enrich_list_response doGet lr rk dk be mc = .ok out ∧
        dictGet out rk = some (.arr enriched) ∧
        enriched.length = items.length ∧
        (∀ j io dd, j < mc → items[j]? = some (.obj io) →
          itemDetail doGet dk (be (.obj io)) = some dd →
          enriched[j]? = some (.obj (dictMerge io dd))) ∧
        (∀ j it, items[j]? = some it →
          (mc ≤ j ∨ itemDetail doGet dk (be it) = none) →
          enriched[j]? = some it) ∧
        (((items.take mc).map be).filter
            (fun ep => (itemDetail doGet dk ep).isNone) = [] →
          dictGet out "_warnings" = none) ∧
        (((items.take mc).map be).filter
            (fun ep => (itemDetail doGet dk ep).isNone) ≠ [] →
          dictGet out "_warnings" = some (.arr
            ((((items.take mc).map be).filter
                (fun ep => (itemDetail doGet dk ep).isNone)).map
              (fun e => .str ("Detail enrichment failed for: " ++ e)))))) := by
  constructor
  · rintro rfl
    have hgetd : dictGetD lr rk (.arr []) = .arr [] := by
      unfold dictGetD
      rw [hitems]
      rfl
    unfold enrich_list_response
    simp [hgetd, jTruthy]
  · intro hne
    have hgetd : dictGetD lr rk (.arr []) = .arr items := by
      unfold dictGetD
      rw [hitems]
      rfl
    have htr : jTruthy (.arr items) = true := by
      simp [jTruthy, hne]
    have heps_len : (((items.take mc).map be)).length = min mc items.length := by
      simp
    have heps_le_mc : (((items.take mc).map be)).length ≤ mc := by
      rw [heps_len]; omega
    have heps_le_items : (((items.take mc).map be)).length ≤ items.length := by
      rw [heps_len]; omega
    have htake_eps : (((items.take mc).map be)).take mc = (items.take mc).map be :=
      List.take_of_length_le heps_le_mc
    have hsoft' : ∀ ep ∈ (items.take mc).map be, isHardOutcome (doGet ep) = false := by
      intro ep hep
      rcases List.mem_map.mp hep with ⟨it, hit, rfl⟩
      exact hsoft it hit
    have hfetch : fetch_details_concurrent doGet ((items.take mc).map be) mc =
        .ok (((items.take mc).map be).map (fun ep =>
          match doGet ep with
          | .ok d => some d
          | .error _ => none)) := by
      unfold fetch_details_concurrent
      rw [htake_eps]
      exact gather_safe_get_ok doGet _ hsoft'
    have hmerge := mergeItems_spec
      (buildDetailMap dk (((items.take mc).map be).zip
        (((items.take mc).map be).map (fun ep =>
          match doGet ep with
          | .ok d => some d
          | .error _ => none))))
      ((items.take mc).map be) items 0 hobj
    have hdm : ∀ ep ∈ (items.take mc).map be,
        alookup (buildDetailMap dk (((items.take mc).map be).zip
          (((items.take mc).map be).map (fun ep =>
            match doGet ep with
            | .ok d => some d
            | .error _ => none)))) ep = itemDetail doGet dk ep := by
      intro ep hep
      exact detail_map_lookup doGet dk _ ep hnodup hep
    have hfailed : failedAll
        (buildDetailMap dk (((items.take mc).map be).zip
          (((items.take mc).map be).map (fun ep =>
            match doGet ep with
            | .ok d => some d
            | .error _ => none))))
        ((items.take mc).map be) 0 items =
        ((items.take mc).map be).filter
          (fun ep => (itemDetail doGet dk ep).isNone) := by
      rw [failedAll_eq_filter _ _ items 0 (by omega), List.drop_zero]
      exact List.filter_congr (fun ep hep => by rw [hdm ep hep])
    have hmain : enrich_list_response doGet lr rk dk be mc =
        .ok (if !((((items.take mc).map be).filter
              (fun ep => (itemDetail doGet dk ep).isNone)).isEmpty) then
          dictSet (dictSet lr rk (.arr (mergeAll
            (buildDetailMap dk (((items.take mc).map be).zip
              (((items.take mc).map be).map (fun ep =>
                match doGet ep with
                | .ok d => some d
                | .error _ => none))))
            ((items.take mc).map be) 0 items))) "_warnings"
            (.arr (((((items.take mc).map be).filter
                (fun ep => (itemDetail doGet dk ep).isNone))).map
              (fun e => .str ("Detail enrichment failed for: " ++ e))))
        else
          dictSet lr rk (.arr (mergeAll
            (buildDetailMap dk (((items.take mc).map be).zip
              (((items.take mc).map be).map (fun ep =>
                match doGet ep with
                | .ok d => some d
                | .error _ => none))))
            ((items.take mc).map be) 0 items))) := by
      unfold enrich_list_response
      simp only [hgetd, htr, Bool.not_true, Bool.false_eq_true, if_false,
        hfetch, hmerge]
      rw [hfailed]
    set dm := buildDetailMap dk (((items.take mc).map be).zip
      (((items.take mc).map be).map (fun ep =>
        match doGet ep with
        | .ok d => some d
        | .error _ => none))) with hdm_def
    set enriched := mergeAll dm ((items.take mc).map be) 0 items with henr_def
    set failedF := ((items.take mc).map be).filter
      (fun ep => (itemDetail doGet dk ep).isNone) with hff_def
    have hindex : ∀ j io dd, j < mc → items[j]? = some (.obj io) →
        itemDetail doGet dk (be (.obj io)) = some dd →
        enriched[j]? = some (.obj (dictMerge io dd)) := by
      intro j io dd hjmc hitem hdet
      have hj : j < items.length := by
        rcases List.getElem?_eq_some_iff.mp hitem with ⟨hlt, _⟩
        exact hlt
      have hje : ((items.take mc).map be)[j]? = some (be (.obj io)) := by
        rw [List.getElem?_map, List.getElem?_take, if_pos hjmc, hitem]
        rfl
      have hmem : be (.obj io) ∈ (items.take mc).map be :=
        List.getElem?_mem hje
      rw [henr_def, mergeAll_getElem, hitem]
      simp only [Option.map_some']
      rw [Nat.zero_add]
      simp only [mergeOne, hje, hdm _ hmem, hdet]
    have hunchanged : ∀ j it, items[j]? = some it →
        (mc ≤ j ∨ itemDetail doGet dk (be it) = none) →
        enriched[j]? = some it := by
      intro j it hitem hc
      rw [henr_def, mergeAll_getElem, hitem]
      simp only [Option.map_some']
      rw [Nat.zero_add]
      rcases hc with hge | hdet
      · have hje : ((items.take mc).map be)[j]? = none := by
          rw [List.getElem?_eq_none_iff, heps_len]
          omega
        simp only [mergeOne, hje]
      · cases hje : ((items.take mc).map be)[j]? with
        | none =>
          simp only [mergeOne, hje]
        | some ep =>
          have hjlt : j < (((items.take mc).map be)).length := by
            rcases List.getElem?_eq_some_iff.mp hje with ⟨hlt, _⟩
            exact hlt
          have hjmc : j < mc := by
            rw [heps_len] at hjlt
            omega
          have hepv : ep = be it := by
            rw [List.getElem?_map, List.getElem?_take, if_pos hjmc, hitem] at hje
            simpa using hje.symm
          subst hepv
          have hmem : be it ∈ (items.take mc).map be := List.getElem?_mem hje
          simp only [mergeOne, hje, hdm _ hmem, hdet]
    have hlen : enriched.length = items.length := by
      rw [henr_def]
      exact mergeAll_length _ _ items 0
    rw [hmain]
    by_cases hfe : failedF = []
    · refine ⟨dictSet lr rk (.arr enriched), enriched, ?_, ?_, hlen, hindex,
        hunchanged, ?_, ?_⟩
      · rw [hfe]
        simp
      · exact dictGet_dictSet_self lr rk (.arr enriched)
      · intro _
        rw [dictGet_dictSet_ne lr rk "_warnings" _ (Ne.symm hrk)]
        exact hw
      · intro hcontra
        exact absurd hfe hcontra
    · have hfee : failedF.isEmpty = false := by
        simp [List.isEmpty_eq_false, hfe]
      refine ⟨dictSet (dictSet lr rk (.arr enriched)) "_warnings"
          (.arr (failedF.map (fun e => .str ("Detail enrichment failed for: " ++ e)))),
        enriched, ?_, ?_, hlen, hindex, hunchanged, ?_, ?_⟩
      · rw [hfee]
        simp
      · rw [dictGet_dictSet_ne _ "_warnings" rk _ hrk]
        exact dictGet_dictSet_self lr rk (.arr enriched)
      · intro hcontra
        exact absurd hcontra hfe
      · intro _
        exact dictGet_dictSet_self _ "_warnings" _

/-- Witness for C10: a two-item list whose first detail fetch succeeds and
whose second fails; the first item gains the detail field, the second stays
unchanged, and `_warnings` names the failed endpoint. -/
theorem enrich_list_response_spec_witness :
    (∃ out enriched,
      enrich_list_response doGetDemo listResponseDemo "hearings" "hearing"
        buildEndpointDemo 25 = .ok out ∧
      dictGet out "hearings" = some (.arr enriched) ∧
      enriched.length =
        ([.obj [("id", .num 0)], .obj [("id", .num 1)]] : List JVal).length ∧
      (∀ j io dd, j < 25 →
        ([.obj [("id", .num 0)], .obj [("id", .num 1)]] : List JVal)[j]? =
          some (.obj io) →
        itemDetail doGetDemo "hearing" (buildEndpointDemo (.obj io)) = some dd →
        enriched[j]? = some (.obj (dictMerge io dd))) ∧
      (∀ j it,
        ([.obj [("id", .num 0)], .obj [("id", .num 1)]] : List JVal)[j]? =
          some it →
        (25 ≤ j ∨ itemDetail doGetDemo "hearing" (buildEndpointDemo it) = none) →
        enriched[j]? = some it) ∧
      ((((([.obj [("id", .num 0)], .obj [("id", .num 1)]] : List JVal).take 25).map
            buildEndpointDemo).filter
          (fun ep => (itemDetail doGetDemo "hearing" ep).isNone)) = [] →
        dictGet out "_warnings" = none) ∧
      ((((([.obj [("id", .num 0)], .obj [("id", .num 1)]] : List JVal).take 25).map
            buildEndpointDemo).filter
          (fun ep => (itemDetail doGetDemo "hearing" ep).isNone)) ≠ [] →
        dictGet out "_warnings" = some (.arr
          ((((([.obj [("id", .num 0)], .obj [("id", .num 1)]] : List JVal).take 25).map
              buildEndpointDemo).filter
            (fun ep => (itemDetail doGetDemo "hearing" ep).isNone)).map
            (fun e => .str ("Detail enrichment failed for: " ++ e)))))) ∧
    enrich_list_response doGetDemo listResponseDemo "hearings" "hearing"
        buildEndpointDemo 25 =
      .ok [("hearings", .arr [.obj [("id", .num 0), ("x", .num 1)],
                              .obj [("id", .num 1)]]),
           ("_warnings", .arr [.str "Detail enrichment failed for: /d/1"])] := by
  refine ⟨(enrich_list_response_spec doGetDemo listResponseDemo "hearings"
      "hearing" buildEndpointDemo 25
      [.obj [("id", .num 0)], .obj [("id", .num 1)]]
      rfl (by decide) (by decide) (by decide) rfl (by decide)).2
      (by simp), rfl⟩

end Congress
